import Mathlib

/-!
Verification of the NDB weekly-status dashboard (Jira client, field
projector, Confluence summary fetcher, HTTP facade) against its
natural-language specification.  JavaScript values are modelled by the
inductive `JsVal` (with an explicit `undefined` distinct from `null`,
as in JS); functions that can raise a `TypeError` in JS are modelled in
the `Except String` monad; network transports are oracles passed as
parameters.
-/

set_option maxRecDepth 4096

mutual

/-- Model of a JavaScript (JSON-like) runtime value.  `vUndef` is the
JS `undefined` value, distinct from `null`; `vNum` models numbers by
integers (no claim depends on float rendering).  Array elements and
object fields are mutual inductives rather than nested lists so that
structural recursion and decidable equality work definitionally. -/
inductive JsVal where
  | vNull
  | vUndef
  | vBool (b : Bool)
  | vNum (n : Int)
  | vStr (s : String)
  | vArr (elems : JsList)
  | vObj (fields : JsFields)
  deriving DecidableEq

/-- The element list of a JS array. -/
inductive JsList where
  | nil
  | cons (hd : JsVal) (tl : JsList)
  deriving DecidableEq

/-- The insertion-ordered field list of a JS object. -/
inductive JsFields where
  | nil
  | cons (key : String) (val : JsVal) (tl : JsFields)
  deriving DecidableEq

end

/-- Convert an ordinary list of values into a JS array element
list. -/
def JsList.ofList : List JsVal → JsList
  | [] => .nil
  | x :: t => .cons x (JsList.ofList t)

/-- View a JS array element list as an ordinary list. -/
def JsList.toList : JsList → List JsVal
  | .nil => []
  | .cons x t => x :: t.toList

/-- Convert an ordinary association list into a JS object field
list. -/
def JsFields.ofList : List (String × JsVal) → JsFields
  | [] => .nil
  | (k, v) :: t => .cons k v (JsFields.ofList t)

/-- View a JS object field list as an ordinary association list. -/
def JsFields.toList : JsFields → List (String × JsVal)
  | .nil => []
  | .cons k v t => (k, v) :: t.toList

/-- Build a JS array value from an ordinary list. -/
def JsVal.arr (l : List JsVal) : JsVal :=
  .vArr (JsList.ofList l)

/-- Build a JS object value from an ordinary association list. -/
def JsVal.obj (l : List (String × JsVal)) : JsVal :=
  .vObj (JsFields.ofList l)

namespace JsVal

/-- JS truthiness of a value: `null`, `undefined`, `false`, `0` and the
empty string are falsy; every object and array is truthy. -/
def truthy : JsVal → Bool
  | vNull => false
  | vUndef => false
  | vBool b => b
  | vNum n => n != 0
  | vStr s => s ≠ ""
  | vArr _ => true
  | vObj _ => true

/-- Whether `typeof v` is the string `object` in JS (true for objects,
arrays and `null`). -/
def typeofObject : JsVal → Bool
  | vNull => true
  | vArr _ => true
  | vObj _ => true
  | _ => false

/-- Whether the value is an array (`Array.isArray`). -/
def isArray : JsVal → Bool
  | vArr _ => true
  | _ => false

/-- Whether the value is a string (`typeof v === "string"` in JS). -/
def isString : JsVal → Bool
  | vStr _ => true
  | _ => false

/-- Whether the value is `null` or `undefined` (the guard
`value === null or value === undefined`). -/
def isNullish : JsVal → Bool
  | vNull => true
  | vUndef => true
  | _ => false

/-- Digit-accumulation worker for decimal rendering; the first
argument is fuel bounding the digit count so that the recursion is
structural and evaluation works definitionally. -/
def natDigitsGo : Nat → Nat → List Char → List Char
  | _, 0, acc => if acc.isEmpty then ['0'] else acc
  | 0, _ + 1, acc => acc
  | fuel + 1, n + 1, acc =>
    natDigitsGo fuel ((n + 1) / 10) (Char.ofNat (48 + (n + 1) % 10) :: acc)

/-- Canonical decimal rendering of a nonnegative number. -/
def natDigits (n : Nat) : String :=
  String.mk (natDigitsGo (n + 1) n [])

/-- JS string coercion of an integer. -/
def intStr (n : Int) : String :=
  if n < 0 then "-" ++ natDigits n.natAbs else natDigits n.natAbs

mutual

/-- JS string coercion `String(v)` / `v.toString()` for the modelled
values: arrays render as their elements joined with a comma (with
`null` and `undefined` elements rendering empty, as in
`Array.prototype.join`), plain objects render as `[object Object]`. -/
def toStr : JsVal → String
  | vNull => "null"
  | vUndef => "undefined"
  | vBool true => "true"
  | vBool false => "false"
  | vNum n => intStr n
  | vStr s => s
  | vArr xs => arrJoin xs
  | vObj _ => "[object Object]"

/-- Array-to-string coercion: the elements joined with commas,
rendering `null` and `undefined` as empty strings. -/
def arrJoin : JsList → String
  | .nil => ""
  | .cons x tl =>
    let hd :=
      match x with
      | vNull => ""
      | vUndef => ""
      | _ => toStr x
    match tl with
    | .nil => hd
    | _ => hd ++ "," ++ arrJoin tl

end

/-- How one array element renders inside `join`: `null` and
`undefined` become empty, everything else is string-coerced. -/
def elemStr : JsVal → String
  | vNull => ""
  | vUndef => ""
  | v => toStr v

/-- JS property read `v[name]` for a property name on a non-`null`,
non-`undefined` value: objects look the name up in their field list,
arrays answer canonical numeric indices, primitives have no own
properties (all misses give `undefined`).  Reading a property of
`null` or `undefined` throws a `TypeError` in JS; callers that can
reach that case model it separately (see `getProp`). -/
def get (v : JsVal) (name : String) : JsVal :=
  match v with
  | vObj fields =>
    match fields.toList.find? (fun p => p.1 = name) with
    | some p => p.2
    | none => vUndef
  | vArr xs =>
    -- canonical numeric index: "0", "1", ...
    match decodeIndex name with
    | some i => (xs.toList.get? i).getD vUndef
    | none => vUndef
  | _ => vUndef
where
  /-- Parse a canonical array index string. -/
  decodeIndex (s : String) : Option Nat :=
    if s.length > 0 ∧ s.data.all Char.isDigit ∧ (s = "0" ∨ s.data.head? ≠ some '0') then
      some (s.data.foldl (fun acc c => acc * 10 + (c.toNat - 48)) 0)
    else none

/-- JS property read that throws on `null` and `undefined` (modelled in
`Except`): `null.name` raises a `TypeError`. -/
def getProp (v : JsVal) (name : String) : Except String JsVal :=
  match v with
  | vNull => .error ("TypeError: cannot read properties of null")
  | vUndef => .error ("TypeError: cannot read properties of undefined")
  | _ => .ok (v.get name)

/-- JS short-circuit `a || b` on values. -/
def jsOr (a b : JsVal) : JsVal :=
  if a.truthy then a else b

end JsVal

/-- ASCII lowercase of a string, character by character (the effect of
JS `toLowerCase` on the inputs modelled here). -/
def lowerStr (s : String) : String :=
  String.mk (s.data.map Char.toLower)

/-- Prefix test on strings via their character lists
(JS `startsWith`). -/
def strStarts (s pre : String) : Bool :=
  pre.data.isPrefixOf s.data

/-- Join a list of strings with a separator (JS `join`). -/
def joinSep (sep : String) : List String → String
  | [] => ""
  | [x] => x
  | x :: rest => x ++ sep ++ joinSep sep rest

/-- JS `String.prototype.split` with a one-character separator: every
occurrence splits, empty pieces are kept. -/
def splitOnChar (sep : Char) (cs : List Char) : List String :=
  go cs []
where
  go : List Char → List Char → List String
    | [], acc => [String.mk acc.reverse]
    | c :: t, acc =>
      if c = sep then String.mk acc.reverse :: go t []
      else go t (c :: acc)

open JsVal

/-- JS object property assignment `obj[k] = v` on an object modelled as
an insertion-ordered field list: overwriting an existing key keeps its
position, a fresh key is appended at the end (JS enumeration order for
string keys). -/
def objSet {α : Type} (obj : List (String × α)) (k : String) (v : α) :
    List (String × α) :=
  if obj.any (fun p => p.1 = k) then
    obj.map (fun p => if p.1 = k then (k, v) else p)
  else
    obj ++ [(k, v)]

/-- Lookup in an insertion-ordered field list (first match). -/
def objLookup {α : Type} (obj : List (String × α)) (k : String) : Option α :=
  (obj.find? (fun p => p.1 = k)).map Prod.snd

/-!
## Field resolver (`getFieldValue` in `jira-client-clean.js`)

The loop from the source:

  for (const part of fieldParts)
    if (value and typeof value === "object") value = value[part]
    else return null
  return value
-/

/-- Whether the loop keeps walking at this value: the JS condition
`value and typeof value === "object"` (truthy and of object type,
which excludes `null`). -/
def isTraversable (v : JsVal) : Bool :=
  v.truthy && v.typeofObject

/-- The segment-walking loop of `getFieldValue`: a non-traversable
value met before the segments are exhausted returns `null`; otherwise
the final property read is returned as-is (so a missing final segment
yields `undefined`, not `null`). -/
def walkFields : JsVal → List String → JsVal
  | v, [] => v
  | v, p :: ps =>
    if isTraversable v then walkFields (v.get p) ps else JsVal.vNull

/-- `getFieldValue(issue, jiraField)` from the source: guards falsy
issue and falsy path, special-cases the root-level `key` field, guards
a falsy `fields` bag, then walks the dot-separated path. -/
def getFieldValue (issue : JsVal) (jiraField : String) : JsVal :=
  if ¬ issue.truthy ∨ jiraField = "" then JsVal.vNull
  else if jiraField = "key" then issue.get "key"
  else if ¬ (issue.get "fields").truthy then JsVal.vNull
  else walkFields (issue.get "fields") (splitOnChar '.' jiraField.data)

/-!
## Field formatter (`formatFieldValue` and `checkLabel` in
`jira-client-clean.js`)

The locale rendering `new Date(value).toLocaleDateString()` /
`.toLocaleString()` is environment-defined (locale, time zone); it is
passed in as an oracle.  Both calls are total in JS (an unparsable
value renders as an implementation-defined placeholder), matching the
totality of the oracle functions.
-/

/-- Environment-defined locale rendering of `new Date(value)`. -/
structure DateEnv where
  localeDate : JsVal → String
  localeDateTime : JsVal → String

/-- How one element of a text-typed array of objects renders:
`item.name || item.toString()`. Property access throws on `null` and
`undefined` elements, which is the one genuine `TypeError` in the
formatter. -/
def textArrayItem (item : JsVal) : Except String String :=
  match item.getProp "name" with
  | .error e => .error e
  | .ok nm => .ok (toStr (jsOr nm (JsVal.vStr (toStr item))))

/-- Sequential rendering of a text-typed array of objects
(`value.map(item => item.name || item.toString()).join(", ")`). -/
def textArrayItems : List JsVal → Except String (List String)
  | [] => .ok []
  | x :: xs =>
    match textArrayItem x with
    | .error e => .error e
    | .ok s =>
      match textArrayItems xs with
      | .error e => .error e
      | .ok rest => .ok (s :: rest)

/-- The join used by the text formatter: JS `join(", ")` renders
`null` and `undefined` elements as empty strings. -/
def joinComma (xs : List JsVal) : String :=
  joinSep ", " (xs.map elemStr)

/-- `formatFieldValue(value, type)` from the source.  `link` returns
the value unchanged (no probing); `confluence` passes URL-shaped
strings through, probes `url` or `value` or `href` on objects (JS
truthiness, so an empty-string `url` falls through), and string-coerces
everything else; `badge` maps null to `Unknown` and objects to
`name` or `displayName` or string form; `date` and `datetime` go to
the locale oracle; the default (`text`) branch joins arrays and takes
`displayName` or `name` on objects.  The result is a `JsVal` (not
always a string) because `link` and the truthy-probing branches can
return non-strings, exactly as in JS. -/
def formatFieldValue (env : DateEnv) (value : JsVal) (type : String) :
    Except String JsVal :=
  if value.isNullish then
    .ok (if type = "badge" then .vStr "Unknown" else .vStr "")
  else if type = "link" then
    .ok value
  else if type = "confluence" then
    match value with
    | .vStr s =>
      if strStarts s "http" then .ok (.vStr s) else .ok (.vStr s)
    | .vObj _ | .vArr _ =>
      .ok (jsOr (value.get "url") (jsOr (value.get "value")
            (jsOr (value.get "href") (.vStr (toStr value)))))
    | v => .ok (.vStr (toStr v))
  else if type = "badge" then
    match value with
    | .vObj _ | .vArr _ =>
      .ok (jsOr (value.get "name") (jsOr (value.get "displayName")
            (.vStr (toStr value))))
    | v => .ok (.vStr (toStr v))
  else if type = "date" then
    .ok (.vStr (env.localeDate value))
  else if type = "datetime" then
    .ok (.vStr (env.localeDateTime value))
  else
    -- the text / default branch
    match value with
    | .vArr xs =>
      match xs.toList with
      | [] => .ok (.vStr "")
      | x :: rest =>
        if x.typeofObject then
          match textArrayItems (x :: rest) with
          | .error e => .error e
          | .ok items => .ok (.vStr (joinSep ", " items))
        else
          .ok (.vStr (joinComma (x :: rest)))
    | .vObj _ =>
      .ok (jsOr (value.get "displayName") (jsOr (value.get "name")
            (.vStr (toStr value))))
    | v => .ok (.vStr (toStr v))

/-- The per-entry label string of `checkLabel`:
`typeof label === "string" ? label : (label.name || label.toString())`,
followed by the `toLowerCase` call, which throws when the computed
label string is not actually a string (for example a truthy numeric
`name`). -/
def labelEntryLower (label : JsVal) : Except String String :=
  match label with
  | .vStr s => .ok (lowerStr s)
  | _ =>
    match label.getProp "name" with
    | .error e => .error e
    | .ok nm =>
      match jsOr nm (.vStr (toStr label)) with
      | .vStr s => .ok (lowerStr s)
      | _ => .error "TypeError: labelStr.toLowerCase is not a function"

/-- Sequential short-circuiting `Array.prototype.some`: later entries
are not evaluated once a match is found. -/
def someLabelMatches (target : String) : List JsVal → Except String Bool
  | [] => .ok false
  | x :: xs =>
    match labelEntryLower x with
    | .error e => .error e
    | .ok s => if s = target then .ok true else someLabelMatches target xs

/-- Substring containment on character lists (JS `String.includes`). -/
def listContainsSub (needle : List Char) : List Char → Bool
  | [] => needle.isPrefixOf []
  | hay@(_ :: t) => needle.isPrefixOf hay || listContainsSub needle t

/-- JS `hay.includes(needle)`. -/
def strIncludes (hay needle : String) : Bool :=
  listContainsSub needle.data hay.data

/-- `checkLabel(labels, labelToCheck)` from the source: falsy labels
give `No`; arrays answer `Yes` when some entry case-insensitively
equals the target; strings answer `Yes` when they case-insensitively
contain the target; any other truthy value gives `No`. -/
def checkLabel (labels : JsVal) (labelToCheck : String) :
    Except String String :=
  if ¬ labels.truthy then .ok "No"
  else
    match labels with
    | .vArr xs =>
      match someLabelMatches (lowerStr labelToCheck) xs.toList with
      | .error e => .error e
      | .ok b => .ok (if b then "Yes" else "No")
    | .vStr s =>
      .ok (if strIncludes (lowerStr s) (lowerStr labelToCheck) then "Yes" else "No")
    | _ => .ok "No"

/-!
## Field projector (`formatIssues` in `jira-client-clean.js`)

The column schema comes from the configuration provider
(`configManager.getBackendConfig().defaultColumns`), which lives
outside the retained sources; columns are therefore a parameter.  A
configured column is a JSON object with string fields, possibly absent
(absent and the empty string are both falsy in the guards, so the
empty string models a missing field); a `null` entry in the column
array is modelled by `Option`.
-/

/-- One configured column definition. -/
structure Column where
  key : String
  jiraField : String
  type : String
  labelToCheck : String

/-- Drop a single trailing slash from the base URL
(`baseUrl.replace(trailing-slash-regex, "")`). -/
def cleanBase (baseUrl : String) : String :=
  if baseUrl.data.getLast? = some (Char.ofNat 47) then
    String.mk baseUrl.data.dropLast
  else baseUrl

/-- The value computed for one applied column: `checkLabel` when the
column type is `labelCheck` with a truthy `labelToCheck`, otherwise
`formatFieldValue`. -/
def colOut (env : DateEnv) (issue : JsVal) (c : Column) :
    Except String JsVal :=
  let fieldValue := getFieldValue issue c.jiraField
  if c.type = "labelCheck" ∧ c.labelToCheck ≠ "" then
    match checkLabel fieldValue c.labelToCheck with
    | .error e => .error e
    | .ok s => .ok (JsVal.vStr s)
  else
    formatFieldValue env fieldValue c.type

/-- Whether the guard `column and column.jiraField and column.key`
lets the column contribute an output entry. -/
def colApplied : Option Column → Bool
  | none => false
  | some c => c.jiraField ≠ "" && c.key ≠ ""

/-- The `columns.forEach` loop of `formatIssues`, threading the row
object through JS property assignment. -/
def applyColumns (env : DateEnv) (issue : JsVal) :
    List (Option Column) → List (String × JsVal) →
    Except String (List (String × JsVal))
  | [], row => .ok row
  | c :: cs, row =>
    match c with
    | none => applyColumns env issue cs row
    | some col =>
      if col.jiraField ≠ "" ∧ col.key ≠ "" then
        match colOut env issue col with
        | .error e => .error e
        | .ok v => applyColumns env issue cs (objSet row col.key v)
      else
        applyColumns env issue cs row

/-- Formatting of a single issue: the row starts as an object literal
with `url` (template literal, so a missing key renders as the string
`undefined` inside the URL) and `key` (`issue.key || ""`), then the
columns are applied in schema order.  Reading `issue.key` throws when
the array element is `null` or `undefined`. -/
def formatIssue (env : DateEnv) (baseUrl : String)
    (columns : List (Option Column)) (issue : JsVal) :
    Except String (List (String × JsVal)) :=
  match issue.getProp "key" with
  | .error e => .error e
  | .ok k =>
    applyColumns env issue columns
      [("url", JsVal.vStr (cleanBase baseUrl ++ "/browse/" ++ toStr k)),
       ("key", jsOr k (JsVal.vStr ""))]

/-- `issues.map(issue => ...)` with the possible `TypeError`
propagating, as in JS. -/
def formatIssueList (env : DateEnv) (baseUrl : String)
    (columns : List (Option Column)) :
    List JsVal → Except String (List (List (String × JsVal)))
  | [] => .ok []
  | i :: is =>
    match formatIssue env baseUrl columns i with
    | .error e => .error e
    | .ok r =>
      match formatIssueList env baseUrl columns is with
      | .error e => .error e
      | .ok rs => .ok (r :: rs)

/-- `formatIssues(issues, useAllColumns)` from the source: a non-array
argument returns the empty list; otherwise each issue is mapped to a
formatted row.  The `useAllColumns` flag is accepted and ignored by
the source body, so it is not a parameter here. -/
def formatIssues (env : DateEnv) (baseUrl : String)
    (columns : List (Option Column)) (issues : JsVal) :
    Except String (List (List (String × JsVal))) :=
  match issues with
  | .vArr xs => formatIssueList env baseUrl columns xs.toList
  | _ => .ok []

/-!
## Tracker client authentication fallback (`makeJiraRequest`)

`makeJiraRequest(jql, fields, token)` computes
`tokenToUse = token || this.pat`, always puts the bearer strategy
first, and appends the PAT-header and basic-auth strategies only when
`tokenToUse` is falsy.  The transport is an oracle from strategy to
result; the loop records each strategy it attempts and stops at the
first success.
-/

/-- The three authentication strategies of the source, in source
order. -/
inductive AuthMethod where
  | bearer
  | patHeader
  | basicAuth

instance : DecidableEq AuthMethod := fun a b => by
  cases a <;> cases b <;> first
    | exact .isTrue rfl
    | exact .isFalse (fun h => AuthMethod.noConfusion h)

/-- JS truthiness of an optional string (absent and empty are
falsy). -/
def truthyStr : Option String → Bool
  | none => false
  | some s => s ≠ ""

/-- JS `a || b` on optional strings. -/
def jsOrStr (a b : Option String) : Option String :=
  if truthyStr a then a else b

/-- Construction of the candidate strategy list: bearer first, and the
PAT-header and basic-auth strategies only if `token || pat` is
falsy. -/
def buildAuthMethods (token pat : Option String) : List AuthMethod :=
  [.bearer] ++
    (if truthyStr (jsOrStr token pat) then []
     else [.patHeader, .basicAuth])

/-- The strategy loop: try each strategy in order, return at the first
success, collect errors otherwise; on exhaustion fail with the last
strategy error (or `Unknown error` when nothing was attempted).  The
first component lists the strategies that were attempted. -/
def runAuthLoop {R : Type} (attempt : AuthMethod → Except String R) :
    List AuthMethod → String → List AuthMethod × Except String R
  | [], lastErr =>
    ([], .error ("All authentication methods failed. Last error: " ++ lastErr))
  | m :: ms, _ =>
    match attempt m with
    | .ok r => ([m], .ok r)
    | .error e =>
      let rest := runAuthLoop attempt ms e
      (m :: rest.1, rest.2)

/-- `makeJiraRequest` restricted to its authentication behaviour: which
strategies are attempted, in which order, and what is returned. -/
def makeJiraRequest {R : Type} (attempt : AuthMethod → Except String R)
    (token pat : Option String) : List AuthMethod × Except String R :=
  runAuthLoop attempt (buildAuthMethods token pat) "Unknown error"

/-- The PAT-header conventions tried, in source order, as
(header-name, header-value) pairs. -/
def patHeaderFormats (cleanToken : String) : List (String × String) :=
  [("X-API-Token", cleanToken),
   ("X-Auth-Token", cleanToken),
   ("Authorization", "Token " ++ cleanToken),
   ("Authorization", "PAT " ++ cleanToken)]

/-- The basic-auth username formats tried, in source order: bare, with
the fixed domain suffix, and the smart format keyed on the presence of
an at sign. -/
def basicAuthUsernames (username : String) : List String :=
  [username,
   username ++ "@nutanix.com",
   if strIncludes username "@" then username else username ++ "@nutanix.com"]

/-!
## Wiki summary fetcher (`confluence-client.js`)

The regular expressions of the source are implemented as explicit
character scanners with the same semantics (leftmost match, lazy
captures with their stop conditions, case-insensitive where the
source uses a case-insensitive flag, dot-matches-newline everywhere
since scanning is over raw characters).
-/

/-- `extractUrl(fieldValue)`: falsy gives null; a string is accepted
only when it starts with `http`; objects probe `url` or `value` or
`href` (JS truthiness); anything else gives null. -/
def extractUrl (fieldValue : JsVal) : JsVal :=
  if ¬ fieldValue.truthy then .vNull
  else
    match fieldValue with
    | .vStr s => if strStarts s "http" then .vStr s else .vNull
    | .vObj _ | .vArr _ =>
      jsOr (fieldValue.get "url") (jsOr (fieldValue.get "value")
        (jsOr (fieldValue.get "href") .vNull))
    | _ => .vNull

/-- Maximal leading digit run of a character list. -/
def leadingDigits (cs : List Char) : List Char :=
  cs.takeWhile Char.isDigit

/-- One alternation step of the page-id pattern at a fixed position:
`pageId=` followed by at least one digit, or `pages/` followed by at
least one digit (case-sensitive, as in the source). -/
def matchPageIdAt (cs : List Char) : Option String :=
  if ("pageId=".data).isPrefixOf cs then
    let ds := leadingDigits (cs.drop 7)
    if ds.isEmpty then none else some (String.mk ds)
  else if ("pages/".data).isPrefixOf cs then
    let ds := leadingDigits (cs.drop 6)
    if ds.isEmpty then none else some (String.mk ds)
  else none

/-- Leftmost match of the page-id pattern over the whole string. -/
def scanPageId : List Char → Option String
  | [] => none
  | l@(_ :: t) =>
    match matchPageIdAt l with
    | some r => some r
    | none => scanPageId t

/-- The second, path-only pattern: `/pages/` followed by digits
(reached only when the first pattern found nothing). -/
def matchPagesPathAt (cs : List Char) : Option String :=
  if ("/pages/".data).isPrefixOf cs then
    let ds := leadingDigits (cs.drop 7)
    if ds.isEmpty then none else some (String.mk ds)
  else none

/-- Leftmost match of the path-only page-id pattern. -/
def scanPagesPath : List Char → Option String
  | [] => none
  | l@(_ :: t) =>
    match matchPagesPathAt l with
    | some r => some r
    | none => scanPagesPath t

/-- `extractPageId(confluenceUrl)`: falsy gives null; objects are
coerced through `url` or `value` or `toString`; a falsy coerced value
gives null; calling `.match` on a truthy non-string raises a
`TypeError` (caught by `fetchPageContent`); otherwise the two
patterns are tried in order. -/
def extractPageId (confluenceUrl : JsVal) : Except String JsVal :=
  if ¬ confluenceUrl.truthy then .ok .vNull
  else
    let urlString :=
      if confluenceUrl.typeofObject then
        jsOr (confluenceUrl.get "url") (jsOr (confluenceUrl.get "value")
          (.vStr (toStr confluenceUrl)))
      else confluenceUrl
    if ¬ urlString.truthy then .ok .vNull
    else
      match urlString with
      | .vStr s =>
        match scanPageId s.data with
        | some id => .ok (.vStr id)
        | none =>
          match scanPagesPath s.data with
          | some id => .ok (.vStr id)
          | none => .ok .vNull
      | _ => .error "TypeError: urlString.match is not a function"

/-- `extractSpaceKey`: leftmost `/spaces/` followed by the run of
non-slash characters (empty run means no match, as the source pattern
requires at least one character). -/
def matchSpaceAt (cs : List Char) : Option String :=
  if ("/spaces/".data).isPrefixOf cs then
    let ds := (cs.drop 8).takeWhile (fun c => c ≠ '/')
    if ds.isEmpty then none else some (String.mk ds)
  else none

/-- Leftmost match for the space-key pattern. -/
def scanSpaceKey : List Char → Option String
  | [] => none
  | l@(_ :: t) =>
    match matchSpaceAt l with
    | some r => some r
    | none => scanSpaceKey t

/-- `extractSpaceKey(confluenceUrl)` (string input). -/
def extractSpaceKey (confluenceUrl : String) : Option String :=
  if confluenceUrl = "" then none else scanSpaceKey confluenceUrl.data

/-- Consume the shortest prefix `[^>]*` followed by the closing `>`
of a tag, returning the rest; `none` when no `>` remains. -/
def pastGt : List Char → Option (List Char)
  | [] => none
  | c :: t => if c = '>' then some t else pastGt t

theorem pastGt_length : ∀ {t r : List Char}, pastGt t = some r →
    r.length < t.length := by
  intro t
  induction t with
  | nil => intro r h; simp [pastGt] at h
  | cons c t ih =>
    intro r h
    simp only [pastGt] at h
    split at h
    · have : t = r := by injection h
      subst this
      simp
    · exact Nat.lt_succ_of_lt (ih h)

/-- Worker for the tag-stripping pass; the fuel bounds the number of
consumed characters so that the recursion is structural and evaluates
definitionally (every step consumes at least one character, so fuel
equal to the input length always suffices). -/
def stripTagsFuel : Nat → List Char → List Char
  | _, [] => []
  | 0, l => l
  | fuel + 1, c :: t =>
    if c = '<' then
      if t.head? = some '>' then '<' :: stripTagsFuel fuel t
      else
        match pastGt t with
        | some rest => ' ' :: stripTagsFuel fuel rest
        | none => '<' :: stripTagsFuel fuel t
    else c :: stripTagsFuel fuel t

/-- The global tag-stripping pass of `cleanHtml`: every occurrence of
`<`, one or more non-`>` characters, `>` becomes a single space; a
`<` with no body or no closing `>` stays literal and scanning resumes
after it (the pattern needs at least one body character, so a bare
angle pair stays). -/
def stripTags (cs : List Char) : List Char :=
  stripTagsFuel cs.length cs

/-- Worker for global literal replacement; fuel as in
`stripTagsFuel`.  A match consumes the whole pattern (non-overlapping
scan, as for a JS global regex over a literal). -/
def replaceFuel (pat repl : List Char) : Nat → List Char → List Char
  | _, [] => []
  | 0, l => l
  | fuel + 1, c :: t =>
    if pat.isPrefixOf (c :: t) then
      repl ++ replaceFuel pat repl fuel ((c :: t).drop pat.length)
    else c :: replaceFuel pat repl fuel t

/-- Replace every occurrence of a nonempty literal pattern, scanning
left to right (JS `replace` with a global literal pattern). -/
def replaceAll (s pat repl : String) : String :=
  if pat.data.isEmpty then s
  else String.mk (replaceFuel pat.data repl.data s.data.length s.data)

/-- The whitespace class used for collapsing (the ASCII part of the
JS whitespace class; the raw non-ASCII space characters do not occur
in the modelled inputs). -/
def isWsChar (c : Char) : Bool :=
  c = ' ' || c = '\t' || c = '\n' || c = '\r' || c = '\x0b' || c = '\x0c'

/-- Collapse every whitespace run to a single space (`\s+` to one
space), tracked by whether the previous character was whitespace. -/
def collapseWs : Bool → List Char → List Char
  | _, [] => []
  | prevWs, c :: t =>
    if isWsChar c then
      if prevWs then collapseWs true t else ' ' :: collapseWs true t
    else c :: collapseWs false t

/-- Trim whitespace from both ends. -/
def trimWs (cs : List Char) : List Char :=
  ((cs.dropWhile isWsChar).reverse.dropWhile isWsChar).reverse

/-- `cleanHtml(html)` from the source: strip tags to spaces, decode
the six entities in source order (sequential global replacement, so
double-encoded entities decode twice, as in JS), collapse whitespace
and trim. -/
def cleanHtml (html : String) : String :=
  if html = "" then ""
  else
    let text := String.mk (stripTags html.data)
    let text := replaceAll text "&nbsp;" " "
    let text := replaceAll text "&amp;" "&"
    let text := replaceAll text "&lt;" "<"
    let text := replaceAll text "&gt;" ">"
    let text := replaceAll text "&quot;" (String.mk [Char.ofNat 34])
    let text := replaceAll text "&#39;" (String.mk [Char.ofNat 39])
    String.mk (trimWs (collapseWs false text.data))

/-- Case-insensitive character comparison (the `i` flag). -/
def lcEq (a b : Char) : Bool :=
  a.toLower = b.toLower

/-- Case-insensitive list-prefix test (pattern, then text). -/
def ciStarts : List Char → List Char → Bool
  | [], _ => true
  | _ :: _, [] => false
  | p :: ps, c :: cs => lcEq p c && ciStarts ps cs

/-- Stop condition of the heading-summary capture: the lookahead
`<h` followed by `1`, `2` or `3` (case-insensitive). -/
def isHeadingStop (cs : List Char) : Bool :=
  ciStarts "<h".data cs &&
    (match cs.drop 2 with
     | d :: _ => d = '1' || d = '2' || d = '3'
     | [] => false)

/-- Lazy capture until the next heading or the end of the input
(the `(?=<h[123]|$)` lookahead). -/
def captureToHeading : List Char → List Char
  | [] => []
  | l@(c :: t) => if isHeadingStop l then [] else c :: captureToHeading t

/-- Attempt of the heading-summary pattern at one position:
`<h[23][^>]*>Summary</h[23]>` (case-insensitive), then the capture up
to the next heading. -/
def matchHeadingAt (cs : List Char) : Option (List Char) :=
  if ciStarts "<h".data cs then
    match cs.drop 2 with
    | d :: rest =>
      if d = '2' || d = '3' then
        match pastGt rest with
        | some t1 =>
          if ciStarts "summary".data t1 then
            let t2 := t1.drop 7
            if ciStarts "</h".data t2 then
              match t2.drop 3 with
              | d2 :: '>' :: t3 =>
                if d2 = '2' || d2 = '3' then some (captureToHeading t3)
                else none
              | _ => none
            else none
          else none
        | none => none
      else none
    | [] => none
  else none

/-- Lazy capture up to a case-insensitive occurrence of the pattern;
fails when the pattern never occurs (the `(.*?)` before a mandatory
closing tag). -/
def captureTo (pat : List Char) : List Char → Option (List Char)
  | [] => none
  | l@(c :: t) =>
    if ciStarts pat l then some []
    else (captureTo pat t).map (fun r => c :: r)

/-- Attempt of the bold-label pattern at one position:
`<p[^>]*><strong[^>]*>Summary:?</strong>(.*?)</p>`
(case-insensitive). -/
def matchStrongAt (cs : List Char) : Option (List Char) :=
  if ciStarts "<p".data cs then
    match pastGt (cs.drop 2) with
    | some t1 =>
      if ciStarts "<strong".data t1 then
        match pastGt (t1.drop 7) with
        | some t2 =>
          if ciStarts "summary".data t2 then
            let t3 := t2.drop 7
            let t4 := match t3 with
              | ':' :: r => r
              | _ => t3
            if ciStarts "</strong>".data t4 then
              captureTo "</p>".data (t4.drop 9)
            else none
          else none
        | none => none
      else none
    | none => none
  else none

/-- Attempt of the first-paragraph pattern at one position:
`<p[^>]*>(.*?)</p>` (case-insensitive). -/
def matchParaAt (cs : List Char) : Option (List Char) :=
  if ciStarts "<p".data cs then
    match pastGt (cs.drop 2) with
    | some t1 => captureTo "</p>".data t1
    | none => none
  else none

/-- Leftmost-match scan for a pattern attempt function. -/
def scanFor (f : List Char → Option (List Char)) :
    List Char → Option (List Char)
  | [] => none
  | l@(_ :: t) =>
    match f l with
    | some r => some r
    | none => scanFor f t

/-- Heading-pattern match over a string (capture as a string). -/
def matchHeadingSummary (s : String) : Option String :=
  (scanFor matchHeadingAt s.data).map String.mk

/-- Bold-label-pattern match over a string. -/
def matchStrongSummary (s : String) : Option String :=
  (scanFor matchStrongAt s.data).map String.mk

/-- First-paragraph-pattern match over a string. -/
def matchFirstPara (s : String) : Option String :=
  (scanFor matchParaAt s.data).map String.mk

/-- `extractSummary(htmlContent)` from the source: empty content gives
null, then the three patterns are tried in priority order with the
first match winning, with the first 500 characters of the cleaned
document as the final fallback. -/
def extractSummary (htmlContent : String) : Option String :=
  if htmlContent = "" then none
  else
    match matchHeadingSummary htmlContent with
    | some cap => some (cleanHtml cap)
    | none =>
      match matchStrongSummary htmlContent with
      | some cap => some (cleanHtml cap)
      | none =>
        match matchFirstPara htmlContent with
        | some cap => some (cleanHtml cap)
        | none => some (String.mk ((cleanHtml htmlContent).data.take 500))

/-- Optional chaining `v?.k`: null and undefined short-circuit to
undefined instead of throwing. -/
def optGet (v : JsVal) (k : String) : JsVal :=
  if v.isNullish then .vUndef else v.get k

/-- The Confluence base URL fixed in the client constructor. -/
def confluenceBaseUrl : String := "https://nutanix.atlassian.net/wiki"

/-- Result object of `fetchPageContent`: the success shape carries
title, body and version; the failure shape carries the error message
with null title and body (and no version field, modelled as
undefined). -/
structure PageResult where
  success : Bool
  title : JsVal
  body : JsVal
  version : JsVal
  error : Option String

/-- Result object of `getSummary` (the per-URL Summary Result). -/
structure SummaryResult where
  success : Bool
  summary : Option String
  title : JsVal
  error : Option String

/-- `fetchPageContent(confluenceUrl, userToken)`: the whole body is a
try block whose throws (invalid URL, missing page id, missing token,
transport failure from the oracle) are all converted into a failure
result.  The transport is an oracle from the request URL to either a
thrown message or the JSON payload. -/
def fetchPageContent (oracle : String → Except String JsVal)
    (localToken : Option String) (confluenceUrl : JsVal)
    (userToken : Option String) : PageResult :=
  let attemptFetch : Except String PageResult := do
    let url := extractUrl confluenceUrl
    if ¬ url.truthy then throw "Invalid Confluence URL format"
    let pageId ← extractPageId url
    if ¬ pageId.truthy then
      throw "Could not extract page ID from Confluence URL"
    let tok := jsOrStr userToken localToken
    if ¬ truthyStr tok then
      throw "Confluence token not available. Please provide token."
    let apiUrl := confluenceBaseUrl ++ "/rest/api/content/" ++ toStr pageId
      ++ "?expand=body.storage,version"
    let data ← oracle apiUrl
    pure
      { success := true
        title := data.get "title"
        body := jsOr (optGet (optGet (data.get "body") "storage") "value")
          (.vStr "")
        version := jsOr (optGet (data.get "version") "number") (.vNum 1)
        error := none }
  match attemptFetch with
  | .ok pr => pr
  | .error e =>
    { success := false, title := .vNull, body := .vNull,
      version := .vUndef, error := some e }

/-- `extractSummary` applied to a field that is only a string on the
happy path: a falsy body gives null, and calling `.match` on a truthy
non-string throws inside the try block of `extractSummary`, which
also returns null. -/
def extractSummaryVal : JsVal → Option String
  | .vStr s => extractSummary s
  | _ => none

/-- `getSummary(confluenceUrl, userToken)` from the source: a
non-extractable URL is reported as a failure result (never an
exception), a failed page fetch is passed through with its message
(or the fixed fallback), and a fetched body has its summary
extracted. -/
def getSummary (oracle : String → Except String JsVal)
    (localToken : Option String) (confluenceUrl : JsVal)
    (userToken : Option String) : SummaryResult :=
  let url := extractUrl confluenceUrl
  if ¬ url.truthy then
    { success := false, summary := none, title := .vUndef,
      error := some "No valid Confluence URL provided" }
  else
    let pc := fetchPageContent oracle localToken url userToken
    if ¬ pc.success then
      { success := false, summary := none, title := .vUndef,
        error := some
          (match pc.error with
           | some e => if e = "" then "Failed to fetch page" else e
           | none => "Failed to fetch page") }
    else
      { success := true, summary := extractSummaryVal pc.body,
        title := pc.title, error := none }

/-- `getSummaries(confluenceUrls, userToken)`: every URL is fetched
(the staggered start offsets affect only timing) and the results are
assigned into one object keyed by the original URL strings; all
results are collected before returning. -/
def getSummaries (oracle : String → Except String JsVal)
    (localToken : Option String) (confluenceUrls : List String)
    (userToken : Option String) : List (String × SummaryResult) :=
  confluenceUrls.foldl
    (fun results url =>
      objSet results url (getSummary oracle localToken (.vStr url) userToken))
    []

/-!
## HTTP facade (`server.js`)

The two token-gated endpoints check the `x-jira-token` request header
before contacting the tracker.  The tracker call is an oracle: the
`Bool` in the result records whether the handler reached it.  The
response is the HTTP status plus the JSON body.
-/

/-- A tracker failure as seen by the handler: a message and the
optional upstream HTTP status (`error.response?.status`). -/
structure TrackerFailure where
  message : String
  status : Option Nat

/-- The shared JSON body of the missing-token rejection. -/
def noTokenBody : JsVal :=
  .obj
    [("success", .vBool false),
     ("error", .vStr "No authentication token provided. Please authenticate first using the Authenticate button.")]

/-- Core of the `/api/refresh-columns` handler: reject with 401 before
any tracker call when the header token is falsy; otherwise call the
tracker, format the issues of the payload, and answer 200 (or map the
failure to its upstream status, defaulting to 500).  The second
component records whether the tracker was invoked. -/
def handleRefreshColumns (env : DateEnv) (baseUrl : String)
    (columns : List (Option Column)) (userToken : Option String)
    (tracker : Except TrackerFailure JsVal) :
    (Nat × JsVal) × Bool :=
  if ¬ truthyStr userToken then
    ((401, noTokenBody), false)
  else
    match tracker with
    | .ok data =>
      match formatIssues env baseUrl columns (data.get "issues") with
      | .ok rows =>
        ((200, .obj
          [("success", .vBool true),
           ("total", data.get "total"),
           ("issues", .arr (rows.map JsVal.obj)),
           ("message", .vStr "Columns refreshed successfully")]), true)
      | .error msg =>
        ((500, .obj [("success", .vBool false), ("error", .vStr msg)]), true)
    | .error e =>
      ((e.status.getD 500,
        .obj [("success", .vBool false), ("error", .vStr e.message)]), true)

/-- Core of the `/api/fetch-all-data` handler: the same token gate and
shape, with the broader field set on the tracker side and its own
success message. -/
def handleFetchAllData (env : DateEnv) (baseUrl : String)
    (columns : List (Option Column)) (userToken : Option String)
    (tracker : Except TrackerFailure JsVal) :
    (Nat × JsVal) × Bool :=
  if ¬ truthyStr userToken then
    ((401, noTokenBody), false)
  else
    match tracker with
    | .ok data =>
      match formatIssues env baseUrl columns (data.get "issues") with
      | .ok rows =>
        ((200, .obj
          [("success", .vBool true),
           ("total", data.get "total"),
           ("issues", .arr (rows.map JsVal.obj)),
           ("message", .vStr "All data fetched successfully")]), true)
      | .error msg =>
        ((500, .obj [("success", .vBool false), ("error", .vStr msg)]), true)
    | .error e =>
      ((e.status.getD 500,
        .obj [("success", .vBool false), ("error", .vStr e.message)]), true)

/-!
## Helper lemmas
-/

/-- Round trip between ordinary lists and JS element lists. -/
theorem jsListRoundTrip : ∀ l : List JsVal, (JsList.ofList l).toList = l
  | [] => rfl
  | x :: t => by simp [JsList.ofList, JsList.toList, jsListRoundTrip t]

/-- Round trip between association lists and JS field lists. -/
theorem jsFieldsRoundTrip :
    ∀ l : List (String × JsVal), (JsFields.ofList l).toList = l
  | [] => rfl
  | (k, v) :: t => by
    simp [JsFields.ofList, JsFields.toList, jsFieldsRoundTrip t]

/-- Lookup distributes over cons. -/
theorem objLookup_cons {α : Type} (p : String × α) (t : List (String × α))
    (u : String) :
    objLookup (p :: t) u = if p.1 = u then some p.2 else objLookup t u := by
  by_cases h : p.1 = u <;> simp [objLookup, List.find?, h]

/-- Lookup after the in-place branch of `objSet`. -/
theorem objLookup_map_upd {α : Type} (k u : String) (v : α) :
    ∀ obj : List (String × α),
      objLookup (obj.map (fun p => if p.1 = k then (k, v) else p)) u
      = if u = k then (if obj.any (fun p => p.1 = k) then some v else none)
        else objLookup obj u := by
  intro obj
  induction obj with
  | nil => by_cases h : u = k <;> simp [objLookup, h]
  | cons p t ih =>
    by_cases hpk : p.1 = k
    · by_cases huk : u = k
      · subst huk
        simp [List.map_cons, hpk, objLookup_cons, List.any_cons]
      · simp [List.map_cons, hpk, objLookup_cons, ih, huk, List.any_cons,
          show k ≠ u from fun h => huk h.symm,
          show ¬ p.1 = u from hpk ▸ fun h => huk h.symm]
    · by_cases hpu : p.1 = u
      · have huk : ¬ u = k := fun h => hpk (hpu.trans h)
        simp [List.map_cons, hpk, objLookup_cons, hpu, huk]
      · have hd : (decide (p.1 = k)) = false := by simpa using hpk
        simp only [List.map_cons]
        rw [if_neg hpk, objLookup_cons, if_neg hpu, ih, List.any_cons, hd,
          Bool.false_or, objLookup_cons, if_neg hpu]

/-- Lookup after the append branch of `objSet` (fresh key). -/
theorem objLookup_append_upd {α : Type} (k u : String) (v : α) :
    ∀ obj : List (String × α), obj.any (fun p => p.1 = k) = false →
      objLookup (obj ++ [(k, v)]) u
      = if u = k then some v else objLookup obj u := by
  intro obj
  induction obj with
  | nil =>
    intro _
    by_cases h : u = k
    · subst h; simp [objLookup, List.find?]
    · simp [objLookup, List.find?, h, show ¬ k = u from fun hh => h hh.symm]
  | cons p t ih =>
    intro hany
    simp only [List.any_cons, Bool.or_eq_false_iff, decide_eq_false_iff_not]
      at hany
    by_cases hpu : p.1 = u
    · have huk : ¬ u = k := fun h => hany.1 (hpu.trans h)
      simp [List.cons_append, objLookup_cons, hpu, huk]
    · simp [List.cons_append, objLookup_cons, hpu, ih hany.2]

/-- Effect of JS property assignment on lookup: the assigned key reads
back the assigned value, every other key is unchanged. -/
theorem objLookup_objSet {α : Type} (obj : List (String × α)) (k u : String)
    (v : α) :
    objLookup (objSet obj k v) u
      = if u = k then some v else objLookup obj u := by
  by_cases hany : (obj.any fun p => p.1 = k) = true
  · simp only [objSet, hany, if_true]
    rw [objLookup_map_upd, hany]
    simp
  · have hf : (obj.any fun p => p.1 = k) = false := by
      cases hx : (obj.any fun p => p.1 = k) with
      | false => rfl
      | true => exact absurd hx hany
    simp only [objSet, hf, Bool.false_eq_true, if_false]
    exact objLookup_append_upd k u v obj hf

/-!
## Claim theorems
-/

/-- C10: when `formatIssues` is called with a non-array issues
argument, it returns the empty list rather than throwing, so the
projection is total over malformed top-level input at the public
interface. -/
theorem formatIssues_non_array (env : DateEnv) (baseUrl : String)
    (columns : List (Option Column)) (issues : JsVal)
    (h : issues.isArray = false) :
    formatIssues env baseUrl columns issues = .ok [] := by
  cases issues <;> first
    | rfl
    | exact absurd h (by simp [JsVal.isArray])

/-- Instance of the non-array guard at the value null. -/
theorem formatIssues_non_array_witness :
    JsVal.vNull.isArray = false ∧
      formatIssues ⟨fun _ => "", fun _ => ""⟩ "https://jira.example.com" []
        JsVal.vNull = .ok [] :=
  ⟨rfl, formatIssues_non_array _ _ _ _ rfl⟩

/-- C9: a request to the refresh-columns or the fetch-all-data
endpoint whose x-jira-token header is absent (or empty, both falsy) is
answered with HTTP status 401 and the fixed failure body, and the
tracker is not contacted. -/
theorem handlers_reject_missing_token (env : DateEnv) (baseUrl : String)
    (columns : List (Option Column)) (userToken : Option String)
    (tracker : Except TrackerFailure JsVal)
    (h : truthyStr userToken = false) :
    handleRefreshColumns env baseUrl columns userToken tracker
      = ((401, noTokenBody), false)
    ∧ handleFetchAllData env baseUrl columns userToken tracker
      = ((401, noTokenBody), false)
    ∧ noTokenBody = .obj
        [("success", .vBool false),
         ("error", .vStr "No authentication token provided. Please authenticate first using the Authenticate button.")] := by
  refine ⟨?_, ?_, rfl⟩ <;> simp [handleRefreshColumns, handleFetchAllData, h]

/-- Instance of the 401 rejection with no token header. -/
theorem handlers_reject_missing_token_witness :
    truthyStr none = false ∧
      handleRefreshColumns ⟨fun _ => "", fun _ => ""⟩
        "https://jira.example.com" [] none (.error ⟨"offline", none⟩)
      = ((401, noTokenBody), false) :=
  ⟨rfl, (handlers_reject_missing_token ⟨fun _ => "", fun _ => ""⟩
      "https://jira.example.com" [] none (.error ⟨"offline", none⟩) rfl).1⟩

/-- C3 counterexample: resolving the path a.b.c on an issue whose
fields bag has a.b as an object without c returns undefined, not
null, refuting the claim that any absent segment yields null. -/
theorem getFieldValue_missing_final_segment :
    getFieldValue
      (.obj [("key", .vStr "K"),
             ("fields", .obj [("a", .obj [("b", .obj [])])])])
      "a.b.c" = JsVal.vUndef
    ∧ JsVal.vUndef ≠ JsVal.vNull :=
  ⟨rfl, by decide⟩

/-- C3 (amended): the field resolver never throws and treats absence
as data — a falsy issue or a falsy fields bag gives null, a
non-traversable value met with segments still to walk gives null, an
absent non-final segment gives null, and an absent final segment
gives undefined. -/
theorem getFieldValue_absence (issue v : JsVal) (o : JsFields)
    (p q : String) (ps : List String) (path : String) :
    (isTraversable v = false → walkFields v (p :: ps) = JsVal.vNull)
    ∧ (o.toList.find? (fun e => e.1 = p) = none →
        walkFields (.vObj o) (p :: q :: ps) = JsVal.vNull)
    ∧ (o.toList.find? (fun e => e.1 = p) = none →
        walkFields (.vObj o) [p] = JsVal.vUndef)
    ∧ (issue.truthy = false → getFieldValue issue path = JsVal.vNull)
    ∧ (path ≠ "" → issue.truthy = true → (issue.get "fields").truthy = false →
        path ≠ "key" → getFieldValue issue path = JsVal.vNull)
    ∧ (path ≠ "" → issue.truthy = true → (issue.get "fields").truthy = true →
        path ≠ "key" →
        getFieldValue issue path
          = walkFields (issue.get "fields") (splitOnChar '.' path.data)) := by
  refine ⟨?_, ?_, ?_, ?_, ?_, ?_⟩
  · intro h
    simp [walkFields, h]
  · intro h
    simp [walkFields, isTraversable, JsVal.truthy, JsVal.typeofObject,
      JsVal.get, h]
  · intro h
    simp [walkFields, isTraversable, JsVal.truthy, JsVal.typeofObject,
      JsVal.get, h]
  · intro h
    simp [getFieldValue, h]
  · intro h1 h2 h3 h4
    simp [getFieldValue, h1, h2, h3, h4]
  · intro h1 h2 h3 h4
    simp [getFieldValue, h1, h2, h3, h4]

/-- Instances of the absence behaviour of the field resolver. -/
theorem getFieldValue_absence_witness :
    walkFields (.vObj (JsFields.ofList [("x", JsVal.vNull)])) ["a", "b"]
      = JsVal.vNull
    ∧ getFieldValue JsVal.vNull "a.b" = JsVal.vNull :=
  ⟨(getFieldValue_absence JsVal.vNull JsVal.vNull
      (JsFields.ofList [("x", JsVal.vNull)]) "a" "b" [] "a.b").2.1 rfl,
   (getFieldValue_absence JsVal.vNull JsVal.vNull
      (JsFields.ofList [("x", JsVal.vNull)]) "a" "b" [] "a.b").2.2.2.1 rfl⟩

/-- C5 counterexample: with no extractable URL the failure message of
getSummary is No valid Confluence URL provided, not the No valid URL
provided of the claim. -/
theorem getSummary_no_url_message :
    getSummary (fun _ => .error "network down") none JsVal.vNull none
      = { success := false, summary := none, title := .vUndef,
          error := some "No valid Confluence URL provided" }
    ∧ (some "No valid Confluence URL provided" : Option String)
        ≠ some "No valid URL provided" :=
  ⟨rfl, by decide⟩

/-- C5 (amended): getSummary is total across its public boundary for
every transport oracle and input — a failure result always carries an
error string, a success carries none, and a non-extractable URL
yields the fixed message No valid Confluence URL provided. -/
theorem getSummary_failure_shape (oracle : String → Except String JsVal)
    (localToken : Option String) (input : JsVal)
    (userToken : Option String) :
    ((extractUrl input).truthy = false →
      getSummary oracle localToken input userToken
        = { success := false, summary := none, title := .vUndef,
            error := some "No valid Confluence URL provided" })
    ∧ ((getSummary oracle localToken input userToken).success = false →
        ∃ e, (getSummary oracle localToken input userToken).error = some e)
    ∧ ((getSummary oracle localToken input userToken).success = true →
        (getSummary oracle localToken input userToken).error = none) := by
  refine ⟨?_, ?_, ?_⟩
  · intro h
    simp [getSummary, h]
  · intro h
    by_cases h1 : (extractUrl input).truthy
    · by_cases h2 :
        (fetchPageContent oracle localToken (extractUrl input)
          userToken).success
      · exfalso
        have : (getSummary oracle localToken input userToken).success
            = true := by
          simp [getSummary, h1, h2]
        rw [this] at h
        exact Bool.noConfusion h
      · refine ⟨(match (fetchPageContent oracle localToken (extractUrl input)
            userToken).error with
          | some e => if e = "" then "Failed to fetch page" else e
          | none => "Failed to fetch page"), ?_⟩
        simp [getSummary, h1, h2]
    · refine ⟨"No valid Confluence URL provided", ?_⟩
      simp [getSummary, h1]
  · intro h
    by_cases h1 : (extractUrl input).truthy
    · by_cases h2 :
        (fetchPageContent oracle localToken (extractUrl input)
          userToken).success
      · simp [getSummary, h1, h2]
      · exfalso
        have : (getSummary oracle localToken input userToken).success
            = false := by
          simp [getSummary, h1, h2]
        rw [this] at h
        exact Bool.noConfusion h
    · exfalso
      have : (getSummary oracle localToken input userToken).success
          = false := by
        simp [getSummary, h1]
      rw [this] at h
      exact Bool.noConfusion h

/-- Instance of the fixed no-URL failure result. -/
theorem getSummary_failure_shape_witness :
    (extractUrl JsVal.vNull).truthy = false ∧
      getSummary (fun _ => .error "network down") none JsVal.vNull none
        = { success := false, summary := none, title := .vUndef,
            error := some "No valid Confluence URL provided" } :=
  ⟨rfl,
   (getSummary_failure_shape (fun _ => .error "network down") none
      JsVal.vNull none).1 rfl⟩

/-- C7 counterexample: a link-typed object value is returned unchanged
instead of being probed for its url field, refuting the claim that
link probes url, value, href like confluence does. -/
theorem formatFieldValue_link_passthrough :
    formatFieldValue ⟨fun _ => "", fun _ => ""⟩
      (.obj [("url", .vStr "https://w.example.com/x")]) "link"
      = .ok (.obj [("url", .vStr "https://w.example.com/x")])
    ∧ (Except.ok (JsVal.obj [("url", .vStr "https://w.example.com/x")])
        : Except String JsVal)
        ≠ .ok (.vStr "https://w.example.com/x") :=
  ⟨rfl, fun h => by
    have h2 : JsVal.obj [("url", .vStr "https://w.example.com/x")]
        = .vStr "https://w.example.com/x" := by injection h
    exact absurd h2 (by decide)⟩

/-- C7 (amended): for type link the non-nullish value is returned
unchanged whatever its shape (no probing); for type confluence a
string passes through, an object or array is probed for the first
truthy of url, value, href with its own string form as fallback, and
any other value is string-coerced; null and undefined short-circuit
to the empty string for both types. -/
theorem formatFieldValue_link_confluence (env : DateEnv) (v : JsVal)
    (s : String) (fs : JsFields) (xs : JsList) :
    (v.isNullish = false → formatFieldValue env v "link" = .ok v)
    ∧ formatFieldValue env (.vStr s) "confluence" = .ok (.vStr s)
    ∧ formatFieldValue env (.vObj fs) "confluence"
        = .ok (jsOr ((JsVal.vObj fs).get "url")
            (jsOr ((JsVal.vObj fs).get "value")
              (jsOr ((JsVal.vObj fs).get "href")
                (.vStr (toStr (.vObj fs))))))
    ∧ formatFieldValue env (.vArr xs) "confluence"
        = .ok (jsOr ((JsVal.vArr xs).get "url")
            (jsOr ((JsVal.vArr xs).get "value")
              (jsOr ((JsVal.vArr xs).get "href")
                (.vStr (toStr (.vArr xs))))))
    ∧ (v.isNullish = true →
        formatFieldValue env v "link" = .ok (.vStr "")
        ∧ formatFieldValue env v "confluence" = .ok (.vStr "")) := by
  refine ⟨?_, ?_, ?_, ?_, ?_⟩
  · intro h
    simp [formatFieldValue, h]
  · by_cases hs : strStarts s "http" <;>
      simp [formatFieldValue, JsVal.isNullish, hs]
  · simp [formatFieldValue, JsVal.isNullish]
  · simp [formatFieldValue, JsVal.isNullish]
  · intro h
    cases v <;> simp [JsVal.isNullish] at h <;>
      exact ⟨rfl, rfl⟩

/-- Instance of the unchanged link pass-through on an object. -/
theorem formatFieldValue_link_confluence_witness :
    (JsVal.obj [("url", .vStr "https://w.example.com/x")]).isNullish = false
    ∧ formatFieldValue ⟨fun _ => "", fun _ => ""⟩
        (.obj [("url", .vStr "https://w.example.com/x")]) "link"
      = .ok (.obj [("url", .vStr "https://w.example.com/x")]) :=
  ⟨rfl,
   (formatFieldValue_link_confluence ⟨fun _ => "", fun _ => ""⟩
      (.obj [("url", .vStr "https://w.example.com/x")]) "" .nil .nil).1 rfl⟩

/-- C2 counterexample: with no caller-supplied token but a configured
PAT present, the fallback strategies are not attempted even though
bearer fails — only bearer is tried — refuting the claimed otherwise
branch (PAT-header variants then basic-auth variants). -/
theorem makeJiraRequest_no_fallback_with_config_pat :
    (makeJiraRequest (fun _ => (.error "401 unauthorized" : Except String Unit))
        none (some "configured-pat")).1
      = [AuthMethod.bearer]
    ∧ AuthMethod.patHeader ∉
        (makeJiraRequest
          (fun _ => (.error "401 unauthorized" : Except String Unit))
          none (some "configured-pat")).1
    ∧ AuthMethod.basicAuth ∉
        (makeJiraRequest
          (fun _ => (.error "401 unauthorized" : Except String Unit))
          none (some "configured-pat")).1 := by
  refine ⟨rfl, ?_, ?_⟩ <;> decide

/-- C2 (amended): whenever the caller token or the configured PAT is
truthy, only the bearer strategy is attempted, even when it fails;
only when both are absent is the candidate list bearer, PAT-header,
basic-auth, tried in that order and stopping at the first success. -/
theorem makeJiraRequest_strategy_selection {R : Type}
    (attempt : AuthMethod → Except String R) (token pat : Option String) :
    (truthyStr (jsOrStr token pat) = true →
      (makeJiraRequest attempt token pat).1 = [.bearer]
      ∧ (∀ r, attempt .bearer = .ok r →
          makeJiraRequest attempt token pat = ([.bearer], .ok r))
      ∧ (∀ e, attempt .bearer = .error e →
          makeJiraRequest attempt token pat
            = ([.bearer],
               .error ("All authentication methods failed. Last error: "
                 ++ e))))
    ∧ (truthyStr (jsOrStr token pat) = false →
        buildAuthMethods token pat = [.bearer, .patHeader, .basicAuth]
        ∧ (∀ r, attempt .bearer = .ok r →
            makeJiraRequest attempt token pat = ([.bearer], .ok r))
        ∧ (∀ e r, attempt .bearer = .error e → attempt .patHeader = .ok r →
            makeJiraRequest attempt token pat
              = ([.bearer, .patHeader], .ok r))
        ∧ (∀ e1 e2 r, attempt .bearer = .error e1 →
            attempt .patHeader = .error e2 → attempt .basicAuth = .ok r →
            makeJiraRequest attempt token pat
              = ([.bearer, .patHeader, .basicAuth], .ok r))
        ∧ (∀ e1 e2 e3, attempt .bearer = .error e1 →
            attempt .patHeader = .error e2 → attempt .basicAuth = .error e3 →
            makeJiraRequest attempt token pat
              = ([.bearer, .patHeader, .basicAuth],
                 .error ("All authentication methods failed. Last error: "
                   ++ e3)))) := by
  constructor
  · intro h
    refine ⟨?_, ?_, ?_⟩
    · cases hb : attempt .bearer <;>
        simp [makeJiraRequest, buildAuthMethods, h, runAuthLoop, hb]
    · intro r hr
      simp [makeJiraRequest, buildAuthMethods, h, runAuthLoop, hr]
    · intro e he
      simp [makeJiraRequest, buildAuthMethods, h, runAuthLoop, he]
  · intro h
    refine ⟨by simp [buildAuthMethods, h], ?_, ?_, ?_, ?_⟩
    · intro r hr
      simp [makeJiraRequest, buildAuthMethods, h, runAuthLoop, hr]
    · intro e r he hr
      simp [makeJiraRequest, buildAuthMethods, h, runAuthLoop, he, hr]
    · intro e1 e2 r h1 h2 h3
      simp [makeJiraRequest, buildAuthMethods, h, runAuthLoop, h1, h2, h3]
    · intro e1 e2 e3 h1 h2 h3
      simp [makeJiraRequest, buildAuthMethods, h, runAuthLoop, h1, h2, h3]

/-- Instance of the bearer-only path with a caller token and a failing
transport. -/
theorem makeJiraRequest_strategy_selection_witness :
    makeJiraRequest (fun _ => (.error "boom" : Except String Unit))
      (some "tok") none
    = ([AuthMethod.bearer],
       .error ("All authentication methods failed. Last error: "
         ++ "boom")) :=
  ((makeJiraRequest_strategy_selection
      (fun _ => (.error "boom" : Except String Unit))
      (some "tok") none).1 rfl).2.2 "boom" rfl

/-- C8 counterexample: checkLabel is not total over array values — an
array containing null makes the per-entry property read throw a
TypeError instead of answering Yes or No. -/
theorem checkLabel_throws_on_null_entry :
    checkLabel (.arr [JsVal.vNull]) "blocker"
      = .error "TypeError: cannot read properties of null"
    ∧ ∀ s, checkLabel (.arr [JsVal.vNull]) "blocker" ≠ .ok s := by
  refine ⟨rfl, ?_⟩
  intro s h
  have h1 : checkLabel (.arr [JsVal.vNull]) "blocker"
      = .error "TypeError: cannot read properties of null" := rfl
  rw [h1] at h
  exact Except.noConfusion h

/-- Decidable equality of results (for concrete evaluations). -/
instance {ε α : Type} [DecidableEq ε] [DecidableEq α] :
    DecidableEq (Except ε α) := fun a b =>
  match a, b with
  | .ok x, .ok y =>
    if h : x = y then .isTrue (by rw [h])
    else .isFalse (by intro hh; injection hh; contradiction)
  | .error x, .error y =>
    if h : x = y then .isTrue (by rw [h])
    else .isFalse (by intro hh; injection hh; contradiction)
  | .ok _, .error _ => .isFalse (fun hh => Except.noConfusion hh)
  | .error _, .ok _ => .isFalse (fun hh => Except.noConfusion hh)

/-- Evaluation of the sequential some-loop when every entry yields a
label string. -/
theorem someLabelMatches_eval (target : String) :
    ∀ xs : List JsVal, (∀ x ∈ xs, ∃ l, labelEntryLower x = .ok l) →
      someLabelMatches target xs
        = .ok (xs.any (fun x => labelEntryLower x = .ok target)) := by
  intro xs
  induction xs with
  | nil => intro _; rfl
  | cons x t ih =>
    intro h
    obtain ⟨l, hl⟩ := h x (List.mem_cons_self x t)
    by_cases hlt : l = target
    · subst hlt
      simp [someLabelMatches, hl, List.any_cons, Except.bind]
    · have hne : ¬ (labelEntryLower x = .ok target) := by
        rw [hl]
        intro hh
        exact hlt (by injection hh)
      simp [someLabelMatches, hl, hlt, List.any_cons, hne, Except.bind,
        ih (fun y hy => h y (List.mem_cons_of_mem _ hy))]

/-- C8 (amended): checkLabel is case-insensitive — for an array whose
entries each yield a label string (strings and label-objects among
them) it answers Yes exactly when some entry lowercases to the
lowercased target; for a nonempty string it answers Yes exactly when
the lowercased string contains the lowercased target; falsy values
(null among them) give No; totality holds only on such well-formed
entries. -/
theorem checkLabel_case_insensitive (labels : JsVal) (xs : List JsVal)
    (s c : String) :
    (labels.truthy = false → checkLabel labels c = .ok "No")
    ∧ ((∀ x ∈ xs, ∃ l, labelEntryLower x = .ok l) →
        checkLabel (.arr xs) c
          = .ok (if xs.any (fun x => labelEntryLower x = .ok (lowerStr c))
              then "Yes" else "No"))
    ∧ ((∀ x ∈ xs, ∃ l, labelEntryLower x = .ok l) →
        (checkLabel (.arr xs) c = .ok "Yes"
          ↔ ∃ x ∈ xs, labelEntryLower x = .ok (lowerStr c)))
    ∧ (s ≠ "" → checkLabel (.vStr s) c
        = .ok (if strIncludes (lowerStr s) (lowerStr c) then "Yes" else "No"))
    ∧ checkLabel (.arr [.vStr "Foo"]) "foo" = .ok "Yes" := by
  have harr : ∀ _ : ∀ x ∈ xs, ∃ l, labelEntryLower x = .ok l,
      checkLabel (.arr xs) c
        = .ok (if xs.any (fun x => labelEntryLower x = .ok (lowerStr c))
            then "Yes" else "No") := by
    intro h
    have he := someLabelMatches_eval (lowerStr c) xs h
    simp [checkLabel, JsVal.arr, JsVal.truthy, jsListRoundTrip, he,
      Except.map]
  refine ⟨?_, harr, ?_, ?_, rfl⟩
  · intro h
    simp [checkLabel, h]
  · intro h
    rw [harr h]
    by_cases hb : xs.any (fun x => labelEntryLower x = .ok (lowerStr c))
    · simp only [hb, if_true]
      constructor
      · intro _
        simpa [List.any_eq_true] using hb
      · intro _
        trivial
    · have hb2 : xs.any (fun x => labelEntryLower x = .ok (lowerStr c))
          = false := by
        cases hx : xs.any (fun x => labelEntryLower x = .ok (lowerStr c)) with
        | false => rfl
        | true => exact absurd hx hb
      simp only [hb2, Bool.false_eq_true, if_false]
      constructor
      · intro hh
        have hne : "No" = "Yes" := by injection hh
        exact absurd hne (by decide)
      · intro hex
        exfalso
        have : xs.any (fun x => labelEntryLower x = .ok (lowerStr c))
            = true := by
          simpa [List.any_eq_true] using hex
        rw [this] at hb2
        exact Bool.noConfusion hb2
  · intro h
    simp [checkLabel, JsVal.truthy, h]

/-- Instance of the case-insensitive string containment branch. -/
theorem checkLabel_case_insensitive_witness :
    checkLabel (.vStr "Release-Blocker") "blocker"
      = .ok (if strIncludes (lowerStr "Release-Blocker") (lowerStr "blocker")
          then "Yes" else "No") :=
  (checkLabel_case_insensitive JsVal.vNull [] "Release-Blocker"
    "blocker").2.2.2.1 (by decide)

/-- Lookup in the accumulator threaded through the batch loop of
getSummaries. -/
theorem getSummaries_fold (oracle : String → Except String JsVal)
    (localToken userToken : Option String) :
    ∀ (urls : List String) (acc : List (String × SummaryResult))
      (u : String),
      objLookup
        (urls.foldl
          (fun results url =>
            objSet results url (getSummary oracle localToken (.vStr url)
              userToken))
          acc) u
      = if u ∈ urls then some (getSummary oracle localToken (.vStr u)
          userToken)
        else objLookup acc u := by
  intro urls
  induction urls with
  | nil => intro acc u; simp
  | cons url rest ih =>
    intro acc u
    simp only [List.foldl_cons]
    rw [ih]
    by_cases hmem : u ∈ rest
    · simp [hmem, List.mem_cons]
    · simp only [hmem, if_false]
      rw [objLookup_objSet]
      by_cases hu : u = url
      · subst hu
        simp [List.mem_cons, hmem]
      · simp [List.mem_cons, hu, hmem]

/-- C6: for every URL list, the mapping returned by getSummaries
binds every input URL to exactly the summary result of that URL and
holds nothing else, so one failing URL never aborts the batch — every
other key is still present with its own result. -/
theorem getSummaries_complete (oracle : String → Except String JsVal)
    (localToken userToken : Option String) (urls : List String)
    (u : String) :
    (u ∈ urls →
      objLookup (getSummaries oracle localToken urls userToken) u
        = some (getSummary oracle localToken (.vStr u) userToken))
    ∧ (u ∉ urls →
        objLookup (getSummaries oracle localToken urls userToken) u
          = none) := by
  have h := getSummaries_fold oracle localToken userToken urls [] u
  constructor
  · intro hm
    rw [getSummaries, h, if_pos hm]
  · intro hm
    rw [getSummaries, h, if_neg hm]
    rfl

/-- Instance of the batch completeness with one failing URL among
two: both keys are present and exactly the failing one reports
failure. -/
theorem getSummaries_complete_witness :
    ("bad-value" ∈
        ["https://n.example.net/wiki/pages/42/Doc", "bad-value"] ∧
      objLookup
        (getSummaries
          (fun _ => .ok (.obj
            [("title", .vStr "T"),
             ("body", .obj [("storage", .obj
                [("value", .vStr "<p>ok</p>")])])]))
          (some "cfgtok")
          ["https://n.example.net/wiki/pages/42/Doc", "bad-value"] none)
        "bad-value"
      = some (getSummary
          (fun _ => .ok (.obj
            [("title", .vStr "T"),
             ("body", .obj [("storage", .obj
                [("value", .vStr "<p>ok</p>")])])]))
          (some "cfgtok") (.vStr "bad-value") none))
    ∧ (getSummary
        (fun _ => .ok (.obj
          [("title", .vStr "T"),
           ("body", .obj [("storage", .obj
              [("value", .vStr "<p>ok</p>")])])]))
        (some "cfgtok") (.vStr "bad-value") none).success = false
    ∧ (getSummary
        (fun _ => .ok (.obj
          [("title", .vStr "T"),
           ("body", .obj [("storage", .obj
              [("value", .vStr "<p>ok</p>")])])]))
        (some "cfgtok")
        (.vStr "https://n.example.net/wiki/pages/42/Doc") none).success
      = true :=
  ⟨⟨by decide,
    (getSummaries_complete
      (fun _ => .ok (.obj
        [("title", .vStr "T"),
         ("body", .obj [("storage", .obj
            [("value", .vStr "<p>ok</p>")])])]))
      (some "cfgtok") none
      ["https://n.example.net/wiki/pages/42/Doc", "bad-value"]
      "bad-value").1 (by decide)⟩,
   rfl, rfl⟩

/-- A document holding both a level-2 Summary heading section and a
later bold Summary paragraph (the priority scenario of the spec). -/
def demoDoc : String :=
  "<h2>Summary</h2><p>From the heading section.</p><h2>Details</h2><p><strong>Summary:</strong> from the paragraph.</p>"

/-- C4: extractSummary applies its heuristics in priority order with
the first match winning — the heading-section pattern beats the bold
Summary paragraph pattern, which beats the first-paragraph pattern,
with the first 500 characters of the cleaned document as the final
fallback; in particular the demo document holding both a heading
section and a bold paragraph yields the heading content. -/
theorem extractSummary_priority (html : String) :
    (∀ cap, html ≠ "" → matchHeadingSummary html = some cap →
      extractSummary html = some (cleanHtml cap))
    ∧ (∀ cap, html ≠ "" → matchHeadingSummary html = none →
        matchStrongSummary html = some cap →
        extractSummary html = some (cleanHtml cap))
    ∧ (∀ cap, html ≠ "" → matchHeadingSummary html = none →
        matchStrongSummary html = none → matchFirstPara html = some cap →
        extractSummary html = some (cleanHtml cap))
    ∧ (html ≠ "" → matchHeadingSummary html = none →
        matchStrongSummary html = none → matchFirstPara html = none →
        extractSummary html
          = some (String.mk ((cleanHtml html).data.take 500)))
    ∧ (matchHeadingSummary demoDoc = some "<p>From the heading section.</p>"
       ∧ matchStrongSummary demoDoc = some " from the paragraph."
       ∧ extractSummary demoDoc = some "From the heading section."
       ∧ extractSummary demoDoc ≠ some (cleanHtml " from the paragraph.")) := by
  refine ⟨?_, ?_, ?_, ?_, rfl, rfl, rfl, ?_⟩
  · intro cap h1 h2
    simp [extractSummary, h1, h2]
  · intro cap h1 h2 h3
    simp [extractSummary, h1, h2, h3]
  · intro cap h1 h2 h3 h4
    simp [extractSummary, h1, h2, h3, h4]
  · intro h1 h2 h3 h4
    simp [extractSummary, h1, h2, h3, h4]
  · intro hh
    rw [show extractSummary demoDoc = some "From the heading section."
      from rfl] at hh
    rw [show cleanHtml " from the paragraph." = "from the paragraph."
      from rfl] at hh
    have := Option.some.inj hh
    exact absurd this (by decide)

/-- Instance of the heading-over-paragraph priority on the demo
document. -/
theorem extractSummary_priority_witness :
    extractSummary demoDoc
      = some (cleanHtml "<p>From the heading section.</p>") :=
  (extractSummary_priority demoDoc).1 "<p>From the heading section.</p>"
    (by decide) rfl

/-- The output keys contributed by a column list, in schema order:
exactly the keys of the entries that pass the guard (present entry,
truthy source field path, truthy output key). -/
def appliedKeys : List (Option Column) → List String
  | [] => []
  | none :: cs => appliedKeys cs
  | some col :: cs =>
    if col.jiraField ≠ "" ∧ col.key ≠ "" then col.key :: appliedKeys cs
    else appliedKeys cs

/-- Whether the value of one applied column formats without a thrown
TypeError. -/
def colOutOk (env : DateEnv) (issue : JsVal) (c : Column) : Bool :=
  match colOut env issue c with
  | .ok _ => true
  | .error _ => false

/-- Property reads succeed on every value except null and
undefined. -/
theorem getProp_ok (v : JsVal) (name : String) (h : v.isNullish = false) :
    v.getProp name = .ok (v.get name) := by
  cases v <;> first
    | rfl
    | simp [JsVal.isNullish] at h

/-- Assigning a fresh key appends it at the end of the field list. -/
theorem objSet_fresh {α : Type} (row : List (String × α)) (k : String)
    (v : α) (h : k ∉ row.map Prod.fst) :
    objSet row k v = row ++ [(k, v)] := by
  have hany : (row.any fun p => p.1 = k) = false := by
    rw [List.any_eq_false]
    intro p hp hpk
    exact h (by
      simp only [List.mem_map]
      exact ⟨p, hp, by simpa using hpk⟩)
  simp [objSet, hany]

/-- Shape of the row after the column loop: every applied column
appends its output key in schema order, and the keys outside the
applied set keep their values. -/
theorem applyColumns_shape (env : DateEnv) (issue : JsVal) :
    ∀ (columns : List (Option Column)) (row : List (String × JsVal)),
      (appliedKeys columns).Nodup →
      (∀ k ∈ appliedKeys columns, k ∉ row.map Prod.fst) →
      (∀ col : Column, some col ∈ columns → col.jiraField ≠ "" →
        col.key ≠ "" → colOutOk env issue col = true) →
      ∃ row2, applyColumns env issue columns row = .ok row2
        ∧ row2.map Prod.fst = row.map Prod.fst ++ appliedKeys columns
        ∧ ∀ u, u ∉ appliedKeys columns →
            objLookup row2 u = objLookup row u := by
  intro columns
  induction columns with
  | nil =>
    intro row _ _ _
    exact ⟨row, rfl, by simp [appliedKeys], fun u _ => rfl⟩
  | cons c cs ih =>
    intro row hnodup hfresh hsafe
    match c with
    | none =>
      have := ih row (by simpa [appliedKeys] using hnodup)
        (by simpa [appliedKeys] using hfresh)
        (fun col hm h1 h2 => hsafe col (List.mem_cons_of_mem _ hm) h1 h2)
      simpa [applyColumns, appliedKeys] using this
    | some col =>
      by_cases happ : col.jiraField ≠ "" ∧ col.key ≠ ""
      · have hok := hsafe col (List.mem_cons_self _ _) happ.1 happ.2
        obtain ⟨v, hv⟩ : ∃ v, colOut env issue col = .ok v := by
          unfold colOutOk at hok
          cases hco : colOut env issue col with
          | ok w => exact ⟨w, rfl⟩
          | error e => rw [hco] at hok; exact Bool.noConfusion hok
        have hkeys : appliedKeys (some col :: cs)
            = col.key :: appliedKeys cs := by
          simp [appliedKeys, happ]
        have hknotrow : col.key ∉ row.map Prod.fst :=
          hfresh col.key (by rw [hkeys]; exact List.mem_cons_self _ _)
        have hset := objSet_fresh row col.key v hknotrow
        have hmapset : (objSet row col.key v).map Prod.fst
            = row.map Prod.fst ++ [col.key] := by
          rw [hset]; simp
        have hnodup2 : (appliedKeys cs).Nodup := by
          rw [hkeys] at hnodup
          exact hnodup.of_cons
        have hkeynotcs : col.key ∉ appliedKeys cs := by
          rw [hkeys] at hnodup
          exact (List.nodup_cons.mp hnodup).1
        have hfresh2 : ∀ k ∈ appliedKeys cs,
            k ∉ (objSet row col.key v).map Prod.fst := by
          intro k hk
          rw [hmapset]
          intro hmem
          rcases List.mem_append.mp hmem with hmem1 | hmem2
          · exact hfresh k (by rw [hkeys]; exact List.mem_cons_of_mem _ hk)
              hmem1
          · have : k = col.key := by simpa using hmem2
            exact hkeynotcs (this ▸ hk)
        obtain ⟨row2, hrun, hmap, hlook⟩ := ih (objSet row col.key v) hnodup2
          hfresh2
          (fun col2 hm h1 h2 => hsafe col2 (List.mem_cons_of_mem _ hm) h1 h2)
        refine ⟨row2, ?_, ?_, ?_⟩
        · simp [applyColumns, happ, hv, hrun]
        · rw [hmap, hmapset, hkeys]
          simp
        · intro u hu
          rw [hkeys] at hu
          have hu1 : u ≠ col.key := fun hh =>
            hu (hh ▸ List.mem_cons_self _ _)
          have hu2 : u ∉ appliedKeys cs := fun hh =>
            hu (List.mem_cons_of_mem _ hh)
          rw [hlook u hu2, objLookup_objSet, if_neg hu1]
      · have hkeys : appliedKeys (some col :: cs) = appliedKeys cs := by
          simp [appliedKeys, happ]
        have := ih row (by rwa [hkeys] at hnodup)
          (by rw [hkeys] at hfresh; exact hfresh)
          (fun col2 hm h1 h2 => hsafe col2 (List.mem_cons_of_mem _ hm) h1 h2)
        obtain ⟨row2, hrun, hmap, hlook⟩ := this
        refine ⟨row2, ?_, ?_, ?_⟩
        · simp [applyColumns, happ, hrun]
        · rw [hmap, hkeys]
        · intro u hu
          rw [hkeys] at hu
          exact hlook u hu

/-- Shape of one formatted row: url first, key second, then the
applied output keys in schema order, with the fixed url and key
values. -/
theorem formatIssue_shape (env : DateEnv) (baseUrl : String)
    (columns : List (Option Column)) (issue : JsVal)
    (hnodup : (appliedKeys columns).Nodup)
    (hfresh : ∀ k ∈ appliedKeys columns, k ≠ "url" ∧ k ≠ "key")
    (hnn : issue.isNullish = false)
    (hsafe : ∀ col : Column, some col ∈ columns → col.jiraField ≠ "" →
      col.key ≠ "" → colOutOk env issue col = true) :
    ∃ row, formatIssue env baseUrl columns issue = .ok row
      ∧ row.map Prod.fst = "url" :: "key" :: appliedKeys columns
      ∧ objLookup row "url"
          = some (.vStr (cleanBase baseUrl ++ "/browse/"
              ++ toStr (issue.get "key")))
      ∧ objLookup row "key" = some (jsOr (issue.get "key") (.vStr "")) := by
  have hget := getProp_ok issue "key" hnn
  have hfresh0 : ∀ k ∈ appliedKeys columns,
      k ∉ ([("url", JsVal.vStr (cleanBase baseUrl ++ "/browse/"
              ++ toStr (issue.get "key"))),
            ("key", jsOr (issue.get "key") (JsVal.vStr ""))].map
            Prod.fst) := by
    intro k hk
    have := hfresh k hk
    simp [this.1, this.2]
  obtain ⟨row2, hrun, hmap, hlook⟩ := applyColumns_shape env issue columns
    [("url", JsVal.vStr (cleanBase baseUrl ++ "/browse/"
        ++ toStr (issue.get "key"))),
     ("key", jsOr (issue.get "key") (JsVal.vStr ""))]
    hnodup hfresh0 hsafe
  refine ⟨row2, ?_, ?_, ?_, ?_⟩
  · simp [formatIssue, hget, hrun]
  · rw [hmap]; simp
  · rw [hlook "url" (fun hh => (hfresh "url" hh).1 rfl)]
    simp [objLookup, List.find?]
  · rw [hlook "key" (fun hh => (hfresh "key" hh).2 rfl)]
    simp [objLookup, List.find?]

/-- C1 counterexample: the projection can throw — a text-typed column
over a labels value equal to the one-element array holding null makes
the per-item property read raise a TypeError, so formatIssues does
not return a row list at all, refuting the never-throws part of the
claim. -/
theorem formatIssues_throws_on_null_element :
    formatIssues ⟨fun _ => "", fun _ => ""⟩ "https://jira.example.com"
      [some ⟨"labels", "labels", "text", ""⟩]
      (.arr [.obj [("key", .vStr "NDB-1"),
        ("fields", .obj [("labels", .arr [.vNull])])]])
      = .error "TypeError: cannot read properties of null"
    ∧ ∀ rows,
        formatIssues ⟨fun _ => "", fun _ => ""⟩ "https://jira.example.com"
          [some ⟨"labels", "labels", "text", ""⟩]
          (.arr [.obj [("key", .vStr "NDB-1"),
            ("fields", .obj [("labels", .arr [.vNull])])]])
          ≠ .ok rows := by
  refine ⟨rfl, ?_⟩
  intro rows h
  have h1 : formatIssues ⟨fun _ => "", fun _ => ""⟩
      "https://jira.example.com"
      [some ⟨"labels", "labels", "text", ""⟩]
      (.arr [.obj [("key", .vStr "NDB-1"),
        ("fields", .obj [("labels", .arr [.vNull])])]])
      = .error "TypeError: cannot read properties of null" := rfl
  rw [h1] at h
  exact Except.noConfusion h

/-- C1 (amended): whenever the applied output keys are distinct and
distinct from url and key, and every issue is an object whose applied
column values format without a TypeError, formatIssues returns one
row per issue whose keys are url, key, then exactly the applied
output keys in schema order — skipped column definitions contribute
nothing — with key equal to the issue key (empty string when falsy)
and url the browse link built from the cleaned base URL and the
string form of the issue key. -/
theorem formatIssues_row_shape (env : DateEnv) (baseUrl : String)
    (columns : List (Option Column)) (issues : List JsVal)
    (hnodup : (appliedKeys columns).Nodup)
    (hfresh : ∀ k ∈ appliedKeys columns, k ≠ "url" ∧ k ≠ "key")
    (hsafe : ∀ issue ∈ issues, issue.isNullish = false ∧
      ∀ col : Column, some col ∈ columns → col.jiraField ≠ "" →
        col.key ≠ "" → colOutOk env issue col = true) :
    ∃ rows, formatIssues env baseUrl columns (JsVal.arr issues) = .ok rows
      ∧ rows.length = issues.length
      ∧ List.Forall₂
          (fun issue row =>
            (row.map Prod.fst : List String)
              = "url" :: "key" :: appliedKeys columns
            ∧ objLookup row "url"
                = some (.vStr (cleanBase baseUrl ++ "/browse/"
                    ++ toStr (issue.get "key")))
            ∧ objLookup row "key"
                = some (jsOr (issue.get "key") (.vStr "")))
          issues rows := by
  have main : ∀ issues : List JsVal,
      (∀ issue ∈ issues, issue.isNullish = false ∧
        ∀ col : Column, some col ∈ columns → col.jiraField ≠ "" →
          col.key ≠ "" → colOutOk env issue col = true) →
      ∃ rows, formatIssueList env baseUrl columns issues = .ok rows
        ∧ List.Forall₂
            (fun issue row =>
              (row.map Prod.fst : List String)
                = "url" :: "key" :: appliedKeys columns
              ∧ objLookup row "url"
                  = some (.vStr (cleanBase baseUrl ++ "/browse/"
                      ++ toStr (issue.get "key")))
              ∧ objLookup row "key"
                  = some (jsOr (issue.get "key") (.vStr "")))
            issues rows := by
    intro issues
    induction issues with
    | nil => intro _; exact ⟨[], rfl, List.Forall₂.nil⟩
    | cons i t ih =>
      intro hs
      obtain ⟨hnn, hcols⟩ := hs i (List.mem_cons_self _ _)
      obtain ⟨row, hrow, hmap, hurl, hkey⟩ :=
        formatIssue_shape env baseUrl columns i hnodup hfresh hnn hcols
      obtain ⟨rows, hrows, hall⟩ :=
        ih (fun j hj => hs j (List.mem_cons_of_mem _ hj))
      refine ⟨row :: rows, ?_, List.Forall₂.cons ⟨hmap, hurl, hkey⟩ hall⟩
      simp [formatIssueList, hrow, hrows]
  obtain ⟨rows, hrun, hall⟩ := main issues hsafe
  refine ⟨rows, ?_, hall.length_eq.symm, hall⟩
  simp [formatIssues, JsVal.arr, jsListRoundTrip, hrun]

/-- Instance of the row shape on a two-column schema with a skipped
malformed column. -/
theorem formatIssues_row_shape_witness :
    ∃ rows,
      formatIssues ⟨fun _ => "", fun _ => ""⟩ "https://jira.example.com/"
        [some ⟨"summary", "summary", "text", ""⟩,
         none,
         some ⟨"", "priority", "text", ""⟩,
         some ⟨"ga", "labels", "labelCheck", "ga"⟩]
        (.arr [.obj [("key", .vStr "NDB-1"),
          ("fields", .obj
            [("summary", .vStr "hello"),
             ("labels", .arr [.vStr "GA", .vStr "beta"])])]])
        = .ok rows
      ∧ rows.length = 1
      ∧ List.Forall₂
          (fun issue row =>
            (row.map Prod.fst : List String)
              = "url" :: "key" ::
                appliedKeys
                  [some ⟨"summary", "summary", "text", ""⟩,
                   none,
                   some ⟨"", "priority", "text", ""⟩,
                   some ⟨"ga", "labels", "labelCheck", "ga"⟩]
            ∧ objLookup row "url"
                = some (.vStr (cleanBase "https://jira.example.com/"
                    ++ "/browse/" ++ toStr (issue.get "key")))
            ∧ objLookup row "key"
                = some (jsOr (issue.get "key") (.vStr "")))
          [JsVal.obj [("key", .vStr "NDB-1"),
            ("fields", .obj
              [("summary", .vStr "hello"),
               ("labels", .arr [.vStr "GA", .vStr "beta"])])]]
          rows :=
  formatIssues_row_shape ⟨fun _ => "", fun _ => ""⟩
    "https://jira.example.com/"
    [some ⟨"summary", "summary", "text", ""⟩,
     none,
     some ⟨"", "priority", "text", ""⟩,
     some ⟨"ga", "labels", "labelCheck", "ga"⟩]
    [JsVal.obj [("key", .vStr "NDB-1"),
      ("fields", .obj
        [("summary", .vStr "hello"),
         ("labels", .arr [.vStr "GA", .vStr "beta"])])]]
    (by decide)
    (by decide)
    (by
      intro issue hmem
      simp only [List.mem_singleton] at hmem
      subst hmem
      refine ⟨rfl, ?_⟩
      intro col hcol h1 h2
      simp only [List.mem_cons] at hcol
      rcases hcol with h | h | h | h | h
      · have hc := Option.some.inj h
        subst hc
        rfl
      · exact Option.noConfusion h
      · have hc := Option.some.inj h
        subst hc
        exact absurd rfl h2
      · have hc := Option.some.inj h
        subst hc
        rfl
      · simp at h)
